import Mathlib

set_option maxRecDepth 8000

/-!
Shallow embedding of the UPRM feedback web application's scoring core.

The embedding covers:
* `feedback_tech.py` — `_max_points_for_item`, `_build_scores_skeleton`,
  `generate_feedback` (the full post-processing pipeline, including report
  text construction);
* `rubric_extract.py` — `_normalize_item`, `_heuristic_extract`,
  `_llm_extract`, `extract_rubric_from_text`;
* `app.py` — the rubric store endpoints `save_rubrics` and `rubric_rollback`.

Modelling conventions:
* Python JSON values are the inductive `Json`; Python dicts are association
  lists with unique keys (the shape `json.loads` produces).
* Python floats are modelled as rationals (`ℚ`); the float operations the
  pipeline performs (coercion, comparison, sums, multiplication by 0.9)
  are exact at every input the claims exercise.
* Python exceptions are `Except Unit`/`Except String`: code the source
  wraps in `try/except` is a Lean `Except` computation whose `error` case
  is the caught branch; an `error` escaping a top-level definition models
  an exception propagating to the caller.
* The network call to the LLM plus `json.loads` of its reply is a single
  parameter `llm : Except String Json` (error = exception text, ok = the
  decoded JSON), since the transport itself is an external collaborator.
* `os.getenv` values are `Option String` parameters.
-/

/-- Values of decoded JSON, mirroring what Python's `json.loads` returns
(dicts are association lists with distinct keys, in insertion order). -/
inductive Json where
  | null
  | bool (b : Bool)
  | num (q : ℚ)
  | str (s : String)
  | arr (elems : List Json)
  | obj (fields : List (String × Json))
deriving Repr

/-- First-match lookup in an association list (Python `dict` access order). -/
def assocGet {α : Type} : List (String × α) → String → Option α
  | [], _ => none
  | (k', v') :: rest, k => if k' = k then some v' else assocGet rest k

/-- `d[k] = v` on a Python dict: replace the existing entry in place,
else append (insertion order preserved). -/
def assocSet {α : Type} : List (String × α) → String → α → List (String × α)
  | [], k, v => [(k, v)]
  | (k', v') :: rest, k, v =>
      if k' = k then (k, v) :: rest else (k', v') :: assocSet rest k v

/-- Python truthiness of a JSON value. -/
def pyTruthy : Json → Bool
  | .null => false
  | .bool b => b
  | .num q => q ≠ 0
  | .str s => s ≠ ""
  | .arr xs => ¬ xs.isEmpty
  | .obj fs => ¬ fs.isEmpty

/-- Python's `a or b` on JSON values. -/
def pyOr (a b : Json) : Json := if pyTruthy a then a else b

/-- Python `x.get(k)`: defined (with `None` default) on dicts, raises
`AttributeError` on every other value. -/
def pyGet : Json → String → Except Unit Json
  | .obj fs, k => .ok ((assocGet fs k).getD .null)
  | _, _ => .error ()

/-- Python `w[k] = v` on a dict; the pipeline only assigns into values it
has already read with `.get`, so the non-dict case is unreachable there
and is modelled as the identity. -/
def jsonSet (w : Json) (k : String) (v : Json) : Json :=
  match w with
  | .obj fs => .obj (assocSet fs k v)
  | _ => w

/-- Python `for x in v`: lists yield their elements, strings their
characters (as 1-character strings), dicts their keys; every other value
raises `TypeError`. -/
def pyIter : Json → Except Unit (List Json)
  | .arr xs => .ok xs
  | .str s => .ok (s.data.map fun c => .str (String.mk [c]))
  | .obj fs => .ok (fs.map fun f => .str f.1)
  | _ => .error ()

/-- Kernel-reducible strip of leading and trailing whitespace on a
character list. -/
def pyStripChars (cs : List Char) : List Char :=
  ((cs.dropWhile Char.isWhitespace).reverse.dropWhile Char.isWhitespace).reverse

/-- Python `str.strip()` with no argument (whitespace strip). -/
def String.pyStrip (s : String) : String := String.mk (pyStripChars s.data)

/-- Python `str.lower()` (kernel-reducible equivalent of
`String.toLower`). -/
def String.pyLower (s : String) : String := String.mk (s.data.map Char.toLower)

/-- Python `str.rstrip(c)`: drop trailing copies of one character. -/
def String.pyRstrip (s : String) (c : Char) : String :=
  String.mk (s.data.reverse.dropWhile (· = c)).reverse

/-- Python `sep.join(parts)`. -/
def sepJoin (sep : String) : List String → String
  | [] => ""
  | [x] => x
  | x :: y :: rest => x ++ sep ++ sepJoin sep (y :: rest)

/-- Split a character list at newlines (the pieces, including empty
ones — the behaviour of `splitOn "\x5cn"`). -/
def splitNl : List Char → List Char → List String
  | [], cur => [String.mk cur.reverse]
  | c :: rest, cur =>
    if c = '\n' then String.mk cur.reverse :: splitNl rest []
    else splitNl rest (c :: cur)

/-- Whitespace-delimited words of a character list, dropping empties
(Python `str.split()` with no argument). -/
def splitWsAux : List Char → List Char → List String
  | [], cur => if cur.isEmpty then [] else [String.mk cur.reverse]
  | c :: rest, cur =>
    if c.isWhitespace then
      if cur.isEmpty then splitWsAux rest []
      else String.mk cur.reverse :: splitWsAux rest []
    else splitWsAux rest (c :: cur)

/-- Maximal run of ASCII digits at the head of a character list. -/
def takeDigits (cs : List Char) : List Char × List Char :=
  (cs.takeWhile Char.isDigit, cs.dropWhile Char.isDigit)

/-- Numeric value of a digit run. -/
def digitsVal (ds : List Char) : Nat :=
  ds.foldl (fun a c => a * 10 + (c.toNat - 48)) 0

/-- Model of Python `float(<str>)` on finite decimal literals: optional
sign, integer/fraction digits, optional exponent.  (Non-finite literals
such as `inf`/`nan` are not representable in `ℚ` and are modelled as a
parse failure; no claim depends on them.) -/
def pyParseFloat (s : String) : Option ℚ :=
  let cs := s.pyStrip.data
  let signed : ℚ × List Char :=
    match cs with
    | '+' :: r => (1, r)
    | '-' :: r => (-1, r)
    | r => (1, r)
  let sign := signed.1
  let (ip, cs1) := takeDigits signed.2
  let fractioned : List Char × List Char :=
    match cs1 with
    | '.' :: r => takeDigits r
    | r => ([], r)
  let fp := fractioned.1
  if ip = [] ∧ fp = [] then none
  else
    let mant : ℚ := (digitsVal ip : ℚ) + (digitsVal fp : ℚ) / (10 : ℚ) ^ fp.length
    match fractioned.2 with
    | [] => some (sign * mant)
    | e :: r =>
      if e = 'e' ∨ e = 'E' then
        let esigned : Int × List Char :=
          match r with
          | '+' :: r' => (1, r')
          | '-' :: r' => (-1, r')
          | r' => (1, r')
        let (ed, r2) := takeDigits esigned.2
        if ed = [] ∨ ¬ r2.isEmpty then none
        else some (sign * mant * (10 : ℚ) ^ (esigned.1 * (digitsVal ed : Int)))
      else none

/-- Python `float(x)` on a JSON value: numbers and bools coerce
(`bool` is an `int` subclass), decimal strings parse, everything else
raises. -/
def pyFloat : Json → Except Unit ℚ
  | .num q => .ok q
  | .bool b => .ok (if b then 1 else 0)
  | .str s =>
      match pyParseFloat s with
      | some q => .ok q
      | none => .error ()
  | _ => .error ()

/-- Simplified model of Python `str(<float>)` (exact decimal rendering of
floats is abstracted; no claim observes it). -/
def ratRepr (q : ℚ) : String :=
  if q.den = 1 then toString q.num ++ ".0" else toString q

/-- Model of Python `str(x)` on JSON values.  Container rendering is
abstracted to a placeholder: the pipeline only ever renders scalars in
the positions any claim observes. -/
def pyStr : Json → String
  | .null => "None"
  | .bool true => "True"
  | .bool false => "False"
  | .num q => ratRepr q
  | .str s => s
  | .arr _ => "[...]"
  | .obj _ => "\x7b...\x7d"

/-! ## `feedback_tech.py` -/

/-- One entry of the per-section scores map (`{"score": ..., "total": ...}`). -/
structure ScoreEntry where
  score : ℚ
  total : ℚ
deriving Repr, DecidableEq

/-- `_max_points_for_item` (feedback_tech.py lines 8-22): the explicit
`max_points` when it is an int/float (bools included — Python's
`isinstance(x, int)` accepts them), otherwise the maximum `points` value
across `scoringCriteria`, with every per-entry failure swallowed.
Raises only when `item` itself is not a dict. -/
def max_points_for_item (item : Json) : Except Unit ℚ := do
  let mp ← pyGet item "max_points"
  match mp with
  | .num q => return q
  | .bool b => return (if b then 1 else 0)
  | _ =>
    let sc ← pyGet item "scoringCriteria"
    match sc with
    | .arr entries =>
        return entries.foldl (fun mx e =>
          match pyGet e "points" with
          | .error _ => mx
          | .ok pv =>
            match pyFloat (pyOr pv (.num 0)) with
            | .error _ => mx
            | .ok p => max mx p) 0
    | _ => return 0

/-- Trimmed `str(r.get("name") or "")` of a rubric item (the key
`_build_scores_skeleton` files the item under). -/
def sectionTrimmedName (r : Json) : Except Unit String := do
  let v ← pyGet r "name"
  return (pyStr (pyOr v (.str ""))).pyStrip

/-- The recursion of `_build_scores_skeleton` (lines 25-32), carrying the
dict built so far. -/
def skelAux : List (String × ScoreEntry) → List Json → Except Unit (List (String × ScoreEntry))
  | d, [] => .ok d
  | d, r :: rs => do
    let name ← sectionTrimmedName r
    if name = "" then skelAux d rs
    else
      let total ← max_points_for_item r
      skelAux (assocSet d name ⟨0, total⟩) rs

/-- `_build_scores_skeleton`: one `{score: 0, total: maxPoints}` entry per
rubric item with a non-empty trimmed name. -/
def build_scores_skeleton (rubric : List Json) : Except Unit (List (String × ScoreEntry)) :=
  skelAux [] rubric

/-- Row field: `str(w.get("name") or "").strip()` (line 166). -/
def rowName (w : Json) : Except Unit String := do
  let v ← pyGet w "name"
  return (pyStr (pyOr v (.str ""))).pyStrip

/-- Row field: `float(w.get("score") or 0.0)` (line 169). -/
def rowScore (w : Json) : Except Unit ℚ := do
  let v ← pyGet w "score"
  pyFloat (pyOr v (.num 0))

/-- Row field: `float(w.get("total") or 0.0)` (line 170). -/
def rowTotal (w : Json) : Except Unit ℚ := do
  let v ← pyGet w "total"
  pyFloat (pyOr v (.num 0))

/-- Row field: `[q for q in (w.get("evidence_quotes") or []) if isinstance(q, str)]`
(line 173). -/
def rowQuotes (w : Json) : Except Unit (List String) := do
  let v ← pyGet w "evidence_quotes"
  let xs ← pyIter (pyOr v (.arr []))
  return xs.filterMap fun j => match j with | .str s => some s | _ => none

/-- Row field: `[c for c in (w.get("applied_caps") or []) if isinstance(c, str)]`
(line 186). -/
def rowCaps (w : Json) : Except Unit (List String) := do
  let v ← pyGet w "applied_caps"
  let xs ← pyIter (pyOr v (.arr []))
  return xs.filterMap fun j => match j with | .str s => some s | _ => none

/-- The evidence-quote collection loop (lines 181-184): strip each of the
first two quotes, append when non-empty and not already present. -/
def addQuotes (acc : List String) (qs : List String) : List String :=
  qs.foldl (fun acc q =>
    let qc := q.pyStrip
    if qc ≠ "" ∧ ¬ qc ∈ acc then acc ++ [qc] else acc) acc

/-- The mutable locals of the row-processing loop (lines 160-162). -/
structure LoopSt where
  maxTotal : ℚ
  earned : ℚ
  scores : List (String × ScoreEntry)
  evidence : List String
  capNotes : List String
deriving Repr, DecidableEq

/-- Initial loop state (`earned, max_total = 0.0, 0.0`, empty collections). -/
def initLoopSt : LoopSt := ⟨0, 0, [], [], []⟩

/-- The evidence-strictness penalty (lines 174-175): multiply a positive
score by 0.9 when strictness is on and the row carries no (string)
evidence quotes; otherwise leave it unchanged. -/
def penalizedScore (strict : Bool) (s : ℚ) (quotes : List String) : ℚ :=
  if strict && decide (0 < s) && quotes.isEmpty then s * (9 / 10) else s

/-- The `applied_caps` collection at the end of the row body
(lines 186-190); a coercion failure here abandons only this step. -/
def capsStep (name : String) (st2 : LoopSt) (w' : Json) : LoopSt × Json :=
  match rowCaps w' with
  | .error _ => (st2, w')
  | .ok caps =>
    ({ st2 with
        capNotes := st2.capNotes ++ caps.filterMap (fun c =>
          let c2 := c.pyStrip
          if c2 = "" then none else some (name ++ ": " ++ c2)) }, w')

/-- One iteration of the row loop (lines 164-192).  The whole body sits in
a `try/except: continue`, so a failing step abandons the rest of the body
but keeps every mutation already performed (in particular `max_total += t`
precedes the evidence-quote coercion, and the row's dict is mutated by the
penalty before the caps coercion).  Returns the updated state and the
(possibly mutated) row. -/
def processRow (strict : Bool) (st : LoopSt) (w : Json) : LoopSt × Json :=
  match rowName w with
  | .error _ => (st, w)
  | .ok name =>
    if name = "" then (st, w)
    else
      match rowScore w with
      | .error _ => (st, w)
      | .ok s =>
        match rowTotal w with
        | .error _ => (st, w)
        | .ok t =>
          let st1 : LoopSt := { st with maxTotal := st.maxTotal + t }
          match rowQuotes w with
          | .error _ => (st1, w)
          | .ok quotes =>
            let s' := penalizedScore strict s quotes
            let w' := if strict && decide (0 < s) && quotes.isEmpty
                      then jsonSet w "score" (.num s') else w
            let st2 : LoopSt :=
              { st1 with
                earned := st1.earned + s'
                scores := assocSet st1.scores name ⟨s', t⟩
                evidence := addQuotes st1.evidence (quotes.take 2) }
            capsStep name st2 w'

/-- The whole row loop, also returning the mutated row list (loops later in
the function re-read the rows, observing the penalty mutation). -/
def processRows (strict : Bool) : LoopSt → List Json → LoopSt × List Json
  | st, [] => (st, [])
  | st, w :: ws =>
    let p := processRow strict st w
    let rest := processRows strict p.1 ws
    (rest.1, p.2 :: rest.2)

/-- Round-half-even to an integer — the rounding Python's `format(x, ".0f")`
performs on the exact value. -/
def roundHalfEven (q : ℚ) : Int :=
  let f : Int := ⌊q⌋
  let r : ℚ := q - f
  if r < 1 / 2 then f
  else if 1 / 2 < r then f + 1
  else if f % 2 = 0 then f else f + 1

/-- Python `f"{x:.0f}"`. -/
def fmt0 (q : ℚ) : String := toString (roundHalfEven q)

/-- `(w.get(k) or "").strip()` with no `str(...)` wrapper (lines 207, 213):
Python's `.strip()` is only defined on the string it got, so a truthy
non-string value raises. -/
def strFieldTrim (w : Json) (k : String) : Except Unit String := do
  let v ← pyGet w k
  match pyOr v (.str "") with
  | .str s => return s.pyStrip
  | _ => .error ()

/-- A "weak" section record `(name, score, total, suggestion)` (line 203). -/
abbrev WeakRow := String × ℚ × ℚ × String

/-- A "strong" section record `(name, score, total)` (line 204). -/
abbrev StrongRow := String × ℚ × ℚ

/-- One iteration of the weak/strong partition loop (lines 205-217); its
body is wrapped in `try/except: pass`, so a failing row changes nothing. -/
def weakStrongStep (acc : List WeakRow × List StrongRow) (w : Json) :
    List WeakRow × List StrongRow :=
  match strFieldTrim w "name" with
  | .error _ => acc
  | .ok n =>
    match rowScore w with
    | .error _ => acc
    | .ok s =>
      match rowTotal w with
      | .error _ => acc
      | .ok t =>
        if t = 0 then acc
        else if s / t < 4 / 5 then
          match strFieldTrim w "suggestion" with
          | .error _ => acc
          | .ok sug => (acc.1 ++ [(n, s, t, sug)], acc.2)
        else (acc.1, acc.2 ++ [(n, s, t)])

/-- The sort key of `weak.sort` (line 219). -/
def weakKey (x : WeakRow) : ℚ := if x.2.2.1 = 0 then 0 else x.2.1 / x.2.2.1

/-- Stable ascending insertion (a new element goes after every element with
a key ≤ its own), matching Python's stable `list.sort`. -/
def insSorted (x : WeakRow) : List WeakRow → List WeakRow
  | [] => [x]
  | y :: ys => if weakKey y ≤ weakKey x then y :: insSorted x ys else x :: y :: ys

/-- Stable sort of the weak list by score ratio (line 219). -/
def sortWeak (xs : List WeakRow) : List WeakRow :=
  xs.foldl (fun acc x => insSorted x acc) []

/-- One iteration of the per-rubric breakdown loop (lines 240-258); again
`try/except: continue`. -/
def bodyStep (acc : List String) (w : Json) : List String :=
  match rowName w with
  | .error _ => acc
  | .ok name =>
    match rowScore w with
    | .error _ => acc
    | .ok s =>
      match rowTotal w with
      | .error _ => acc
      | .ok t =>
        let rationale :=
          match pyGet w "rationale" with
          | .error _ => none
          | .ok v => some (pyStr (pyOr v (.str ""))).pyStrip
        match rationale with
        | none => acc
        | some rationale =>
          let sug :=
            match pyGet w "suggestion" with
            | .error _ => none
            | .ok v => some (pyStr (pyOr v (.str ""))).pyStrip
          match sug with
          | none => acc
          | some sug =>
            match rowQuotes w with
            | .error _ => acc
            | .ok quotes =>
              acc ++ [" **" ++ name ++ "**: " ++ fmt0 s ++ "/" ++ fmt0 t]
                ++ (if rationale ≠ "" then ["  - **Why**: " ++ rationale] else [])
                ++ (if sug ≠ "" ∧ sug.pyLower ≠ "none" then ["  - **Improve**: " ++ sug] else [])
                ++ (if ¬ quotes.isEmpty then
                      ["  - **Evidence**: " ++
                        sepJoin " | "
                          ((quotes.take 2).map fun q => "“" ++ q.pyStrip ++ "”")]
                    else [])

/-- Report-text assembly (feedback_tech.py lines 194-260) from the
processed loop state and the (mutated) row list. -/
def buildFinalText (st : LoopSt) (rows : List Json) : String :=
  let header : List String :=
    ["**Final Report Feedback**"]
    ++ (if 0 < st.maxTotal then
          ["**Total Score**: " ++ fmt0 st.earned ++ "/" ++ fmt0 st.maxTotal] else [])
    ++ (if ¬ st.capNotes.isEmpty then
          ["", "**Applied Caps/Gates**"] ++ st.capNotes.take 8 else [])
    ++ ["", "**Overall Summary**"]
  let ws := rows.foldl weakStrongStep ([], [])
  let weakSorted := sortWeak ws.1
  let top3 := weakSorted.take 3
  let summaryLines : List String :=
    ["Draft scores **" ++ fmt0 st.earned ++ "/" ++ fmt0 st.maxTotal ++
      "**. To reach Exemplary, fix gated items first, then raise weakest sections."]
    ++ (if ¬ top3.isEmpty then
          ["**Revise in this order:** " ++
            sepJoin " → " (top3.map fun x =>
              let sug := x.2.2.2
              let action :=
                (if sug ≠ "" then sug
                 else "Strengthen " ++ x.1 ++ " with quantitative evidence").pyRstrip '.'
              x.1 ++ ": " ++ action)]
        else [])
    ++ (let missing := (weakSorted.filter fun x => x.2.1 = 0).map (·.1)
        if ¬ missing.isEmpty then
          ["**Missing sections:** " ++ sepJoin ", " (missing.take 5)] else [])
    ++ (if ¬ ws.2.isEmpty then
          ["**Highlights:** " ++ sepJoin ", " ((ws.2.take 3).map (·.1))] else [])
  let body : List String := ["**Per-Rubric Breakdown**"] ++ rows.foldl bodyStep []
  (sepJoin "\n"
    (header ++ [sepJoin "\n" summaryLines, ""] ++ [""] ++ body)).pyStrip

/-- The overall summary (line 261):
`str((data.get("overall") or {}).get("notes") or "").strip() or ""`.
Raises when `overall` is a truthy non-dict. -/
def computeSummary (data : Json) : Except Unit String := do
  let ov ← pyGet data "overall"
  let notes ← pyGet (pyOr ov (.obj [])) "notes"
  return (pyStr (pyOr notes (.str ""))).pyStrip

/-- The evidence-strictness flag (lines 157-158):
`os.getenv("EVIDENCE_STRICT", "1").strip().lower() not in ("0","false","no")`. -/
def strictFlag (envVal : Option String) : Bool :=
  let sv := (envVal.getD "1").pyStrip.pyLower
  ¬ (sv = "0" ∨ sv = "false" ∨ sv = "no")

/-- Fixed empty-input message (line 42). -/
def emptyMsg : String :=
  "No report content provided. Paste your final report text or upload a file."

/-- Fixed offline-mode message (lines 50-57). -/
def offlineMsg : String :=
  "**Final Report Feedback (offline mode)**\n" ++
  "- LLM disabled (no OPENAI_API_KEY). Returning structure-only scores.\n\n" ++
  "Master rubric emphasis:\n" ++
  "- Apply gates: missing PFD/streams/NPW/IRR/P&ID/HAZOP/DCF caps scores.\n" ++
  "- Check one-to-one PFD↔simulation numbering.\n" ++
  "- Respect page limits; >10% over caps at Proficient.\n"

/-- Degraded-state message embedding the error text (line 152). -/
def degradedMsg (e : String) : String :=
  "**Final Report Feedback (degraded)**\n- Error: " ++ e ++
  "\nFalling back to structure-only scores.\n"

/-- The 4-tuple `generate_feedback` returns:
`(feedback_text, scores, summary, evidence_quotes)`. -/
structure GenResult where
  text : String
  scores : List (String × ScoreEntry)
  summary : String
  evidence : List String
deriving Repr, DecidableEq

/-- `generate_feedback` (feedback_tech.py lines 35-262).  Parameters:
`apiKey` = `os.getenv("OPENAI_API_KEY")`, `strictEnv` =
`os.getenv("EVIDENCE_STRICT")`, `llm` = the combined outcome of the LLM
call and `json.loads` of its reply (the code wraps exactly these two in
its `try`), then the message text and the active rubric.  An `error`
result models a Python exception escaping to the caller. -/
def generate_feedback (apiKey : Option String) (strictEnv : Option String)
    (llm : Except String Json) (message : String) (rubric : List Json) :
    Except Unit GenResult := do
  let text := message.pyStrip
  if text = "" then
    let sk ← build_scores_skeleton rubric
    return ⟨emptyMsg, sk, "No content to evaluate.", []⟩
  else if (apiKey.getD "").pyStrip = "" then
    let sk ← build_scores_skeleton rubric
    return ⟨offlineMsg, sk, "Model offline; no rubric scoring.", []⟩
  else
    match llm with
    | .error e =>
      let sk ← build_scores_skeleton rubric
      return ⟨degradedMsg e, sk, "Model error; no scores.", []⟩
    | .ok data => do
      let writingRaw ← pyGet data "writing"
      let writingRows ← pyIter (pyOr writingRaw (.arr []))
      let strict := strictFlag strictEnv
      let processed := processRows strict initLoopSt writingRows
      let finalText := buildFinalText processed.1 processed.2
      let summary ← computeSummary data
      let scoresOut ←
        if processed.1.scores.isEmpty then build_scores_skeleton rubric
        else pure processed.1.scores
      return ⟨finalText, scoresOut, summary, processed.1.evidence⟩

/-! ## `rubric_extract.py` -/

/-- `re.search(r"([0-9]+(?:\.[0-9]+)?)", s)`: value of the first decimal
numeral in `s`, if any (rubric_extract.py line 18). -/
def searchNumber : List Char → Option ℚ
  | [] => none
  | c :: rest =>
    if c.isDigit then
      let (ip, r1) := takeDigits (c :: rest)
      match r1 with
      | '.' :: r2 =>
        let fp := (takeDigits r2).1
        if fp.isEmpty then some (digitsVal ip : ℚ)
        else some ((digitsVal ip : ℚ) + (digitsVal fp : ℚ) / (10 : ℚ) ^ fp.length)
      | _ => some (digitsVal ip : ℚ)
    else searchNumber rest

/-- The canned 4/3/2/1/0 scale `_normalize_item` substitutes when a section
ends up with zero criteria (lines 27-33). -/
def defaultCriteria : List Json :=
  [.obj [("points", .num 4), ("description", .str "Excellent.")],
   .obj [("points", .num 3), ("description", .str "Good.")],
   .obj [("points", .num 2), ("description", .str "Fair.")],
   .obj [("points", .num 1), ("description", .str "Poor.")],
   .obj [("points", .num 0), ("description", .str "Insufficient.")]]

/-- The criteria loop of `_normalize_item` (lines 13-25): coerce `points`
(falling back to the first embedded numeral of its string form, then 0),
trim the description, and drop duplicate `(points, description)` pairs.
Raises when a criterion is not a dict (the `except` branch re-reads
`c.get("points")`, so the `AttributeError` escapes the handler). -/
def normCritLoop : List (ℚ × String) → List Json → List Json → Except Unit (List Json)
  | _, out, [] => .ok out
  | seen, out, c :: cs => do
    let pv ← pyGet c "points"
    let pts ←
      match pyFloat pv with
      | .ok p => pure p
      | .error _ => pure ((searchNumber (pyStr (pyOr pv (.str ""))).data).getD 0)
    let desc := (pyStr (pyOr (← pyGet c "description") (.str ""))).pyStrip
    if (pts, desc) ∈ seen then normCritLoop seen out cs
    else
      normCritLoop ((pts, desc) :: seen)
        (out ++ [.obj [("points", .num pts), ("description", .str desc)]]) cs

/-- `_normalize_item` (rubric_extract.py lines 9-34). -/
def normalize_item (name : String) (criteria : Json) : Except Unit Json := do
  let nm := name.pyStrip
  let cs ← pyIter (pyOr criteria (.arr []))
  let out ← normCritLoop [] [] cs
  let out := if out.isEmpty then defaultCriteria else out
  return .obj [("name", .str (if nm = "" then "Untitled" else nm)),
               ("scoringCriteria", .arr out)]

/-- `re.sub(r"\s+", " ", ·)` on a string with no leading whitespace:
collapse every whitespace run to a single space. -/
def collapseAux : Bool → List Char → List Char
  | _, [] => []
  | prevWs, c :: rest =>
    if c.isWhitespace then
      if prevWs then collapseAux true rest else ' ' :: collapseAux true rest
    else c :: collapseAux false rest

/-- `re.sub(r"\s+", " ", ln.strip())` (line 41). -/
def collapseWs (s : String) : String := String.mk (collapseAux false s.pyStrip.data)

/-- Python `str.splitlines()` restricted to `\n` separators (exotic line
terminators are not modelled; no claim depends on them): like `splitOn`,
but a trailing newline adds no empty final line, and `""` has no lines. -/
def pySplitlines (s : String) : List String :=
  if s = "" then []
  else
    let parts := splitNl s.data []
    if s.data.getLast? = some '\n' then parts.dropLast else parts

/-- Python `str.split()` with no argument: whitespace-delimited words. -/
def pySplitWs (s : String) : List String := splitWsAux s.data []

/-- Index of the first occurrence of `needle` in `hay`, as `re.search` of a
literal pattern reports it. -/
def findSub : List Char → List Char → Option Nat
  | [], needle => if needle.isEmpty then some 0 else none
  | h :: t, needle =>
    if needle.isPrefixOf (h :: t) then some 0
    else (findSub t needle).map (· + 1)

/-- The character class `[A-Za-z0-9 ,/&()\-]` of `cat_re` (line 60). -/
def clsChar (c : Char) : Bool :=
  c.isUpper ∨ c.isLower ∨ c.isDigit ∨
    c = ' ' ∨ c = ',' ∨ c = '/' ∨ c = '&' ∨ c = '(' ∨ c = ')' ∨ c = '-'

/-- Whether the rest of a line matches the `cat_re` tail
`\s*(?:\([^)]+\))?\s*[:\-]?$`.  The optional parenthesized group can only
close at the first `)` (its body excludes `)`), and every boundary token is
non-whitespace, so maximal munch is exact here. -/
def catTail (rest : List Char) : Bool :=
  let r1 := rest.dropWhile Char.isWhitespace
  let afterPar : Option (List Char) :=
    match r1 with
    | '(' :: inner =>
      match inner.dropWhile (· ≠ ')') with
      | ')' :: tl => if (inner.takeWhile (· ≠ ')')).isEmpty then none else some tl
      | _ => none
    | r => some r
  match afterPar with
  | none => false
  | some r2 =>
    let r3 := r2.dropWhile Char.isWhitespace
    r3 = [] ∨ r3 = [':'] ∨ r3 = ['-']

/-- Greedy search for the capture group of `cat_re`: the longest prefix
`[A-Z][A-Za-z0-9 ,/&()\-]{3,}` whose remainder matches the tail pattern
(`n` counts the class characters after the initial capital). -/
def catTryLen (c0 : Char) (rest : List Char) : Nat → Option (List Char)
  | 0 => none
  | n + 1 =>
    if n + 1 < 3 then none
    else if catTail (rest.drop (n + 1)) then some (c0 :: rest.take (n + 1))
    else catTryLen c0 rest n

/-- `cat_re.match(ln)` (line 60): the heading capture group, when the line
matches. -/
def catMatch (ln : String) : Option String :=
  match ln.data with
  | [] => none
  | c0 :: rest =>
    if c0.isUpper then
      (catTryLen c0 rest (rest.takeWhile clsChar).length).map fun cs => String.mk cs
    else none

/-- The optional `(?:-\s*)?` lead-in of both criterion patterns. -/
def critLead (cs : List Char) : List Char :=
  match cs with
  | '-' :: r => r.dropWhile Char.isWhitespace
  | r => r

/-- The `\s*(.+)$` suffix: with a non-empty remainder, the description is
everything after the maximal whitespace run that still leaves at least one
character (`.` also matches a whitespace character). -/
def descAfter (r : List Char) : Option (List Char) :=
  if r.isEmpty then none
  else
    let d := r.dropWhile Char.isWhitespace
    if d.isEmpty then some [r.getLastD ' '] else some d

/-- The `\s*[:\-]\s*(.+)$` suffix shared by both criterion patterns. -/
def colonDesc (cs : List Char) : Option (List Char) :=
  match cs.dropWhile Char.isWhitespace with
  | c :: r => if c = ':' ∨ c = '-' then descAfter r else none
  | [] => none

/-- Case-insensitive prefix test against an ASCII keyword. -/
def lowerPrefix (w : String) (cs : List Char) : Bool :=
  (cs.take w.length).map Char.toLower = w.data

/-- The `\s*(?:points?|pts?)\s*[:\-]\s*(.+)$` suffix of `crit_re1`
(line 61), trying the alternatives in the engine's preference order. -/
def crit1After (cs : List Char) : Option (List Char) :=
  let r1 := cs.dropWhile Char.isWhitespace
  ["points", "point", "pts", "pt"].firstM fun w =>
    if lowerPrefix w r1 then colonDesc (r1.drop w.length) else none

/-- `(\d{1,2})` followed by a given suffix matcher, preferring the
two-digit reading and backtracking to one digit (shared core of
`crit_re1`/`crit_re2`). -/
def critNum (after : List Char → Option (List Char)) (cs : List Char) :
    Option (ℚ × String) :=
  match cs with
  | d1 :: rest1 =>
    if d1.isDigit then
      match rest1 with
      | d2 :: rest2 =>
        if d2.isDigit then
          match after rest2 with
          | some desc => some ((digitsVal [d1, d2] : ℚ), String.mk desc)
          | none => (after rest1).map fun desc => ((digitsVal [d1] : ℚ), String.mk desc)
        else (after rest1).map fun desc => ((digitsVal [d1] : ℚ), String.mk desc)
      | [] => none
    else none
  | [] => none

/-- `crit_re1.match(ln)` (line 61): `(points, description)` on success. -/
def crit1Match (ln : String) : Option (ℚ × String) :=
  critNum crit1After (critLead ln.data)

/-- `crit_re2.match(ln)` (line 62). -/
def crit2Match (ln : String) : Option (ℚ × String) :=
  critNum colonDesc (critLead ln.data)

/-- `push()` (lines 54-58): flush the current section through
`_normalize_item` when a (truthy) name is pending. -/
def pushItems (items : List Json) (curName : Option String) (curCrit : List Json) :
    Except Unit (List Json) :=
  match curName with
  | none => .ok items
  | some n =>
    if n = "" then .ok items
    else do
      let item ← normalize_item n (.arr curCrit)
      return items ++ [item]

/-- The criterion branches of the line scan (lines 74-88): append a
criterion to the current section when one of the patterns fires (the
short form only with a description of length ≥ 6); without a current
section nothing is recorded. -/
def critStep (named : Bool) (curCrit : List Json) (ln : String) : List Json :=
  if ¬ named then curCrit
  else
    match crit1Match ln with
    | some pd => curCrit ++ [.obj [("points", .num pd.1), ("description", .str pd.2)]]
    | none =>
      match crit2Match ln with
      | some pd =>
        if pd.2.pyStrip.length ≥ 6 then
          curCrit ++ [.obj [("points", .num pd.1), ("description", .str pd.2)]]
        else curCrit
      | none => curCrit

/-- The line scan of `_heuristic_extract` (lines 64-90), ending with the
final `push()`. -/
def heurScan (items : List Json) (curName : Option String) (curCrit : List Json) :
    List String → Except Unit (List Json)
  | [] => pushItems items curName curCrit
  | ln :: rest =>
    if ln = "" then heurScan items curName curCrit rest
    else
      match catMatch ln with
      | some g1 =>
        if (pySplitWs ln).length ≤ 8 then
          match pushItems items curName curCrit with
          | .error e => .error e
          | .ok items' => heurScan items' (some g1.pyStrip) [] rest
        else heurScan items curName (critStep ((curName.getD "") ≠ "") curCrit ln) rest
      | none => heurScan items curName (critStep ((curName.getD "") ≠ "") curCrit ln) rest

/-- The fixed 8-section fallback skeleton (lines 93-105). -/
def fallbackSections : Except Unit (List Json) :=
  ([("Executive Summary", [4, 3, 2, 1, 0]),
    ("Context: Puerto Rico", [4, 3, 2, 1, 0]),
    ("Process Description & Flows", [5, 4, 3, 2, 0]),
    ("Safety & Environmental", [4, 3, 2, 1, 0]),
    ("Economic Analysis", [4, 3, 2, 1, 0]),
    ("Data, Methods, and Rigor", [5, 4, 3, 2, 0]),
    ("Figures, Tables, and Formatting", [3, 2, 1, 0]),
    ("Writing Quality", [3, 2, 1, 0])] : List (String × List ℚ)).mapM fun np =>
    normalize_item np.1
      (.arr (np.2.map fun p => .obj [("points", .num p), ("description", .str "")]))

/-- The line preparation of `_heuristic_extract` (lines 41-48): collapse
whitespace per line, then narrow to an 8000-character window starting 200
characters before the first case-insensitive "rubric", when present. -/
def heurLines (text : String) : List String :=
  let lines0 := (pySplitlines text).map collapseWs
  let joined := sepJoin "\n" lines0
  match findSub (joined.data.map Char.toLower) "rubric".data with
  | some i => pySplitlines (String.mk ((joined.data.drop (i - 200)).take 8000))
  | none => lines0

/-- `_heuristic_extract` (rubric_extract.py lines 37-106). -/
def heuristic_extract (text : String) : Except Unit (List Json) := do
  let items ← heurScan [] none [] (heurLines text)
  if items.isEmpty then fallbackSections else return items

/-- Effectful map over `Except` with direct equation lemmas (used to state
per-item hypotheses about a rubric). -/
def mapE {α : Type} (f : Json → Except Unit α) : List Json → Except Unit (List α)
  | [] => .ok []
  | x :: xs => do
    let y ← f x
    let ys ← mapE f xs
    return y :: ys

/-- The candidate array of `_llm_extract` (line 141): the decoded value
itself when it is a list, the value under a `rubric` key when it is a
dict, `None` otherwise. -/
def llmCand (data : Json) : Json :=
  match data with
  | .arr _ => data
  | .obj fs => (assocGet fs "rubric").getD .null
  | _ => .null

/-- The cleaning comprehension of `_llm_extract` (line 143): each item
through `_normalize_item`; any per-item exception aborts the whole
attempt. -/
def llmClean (xs : List Json) : Except Unit (List Json) :=
  mapE (fun x => do
    let nm ← pyGet x "name"
    let sc ← pyGet x "scoringCriteria"
    normalize_item (pyStr (pyOr nm (.str ""))) (pyOr sc (.arr []))) xs

/-- `_llm_extract` (rubric_extract.py lines 109-147): `none` models the
Python `None` (no credential, transport/parse failure, unusable shape, or
any exception while normalizing). -/
def llm_extract (apiKey : Option String) (llmResp : Except String Json) :
    Option (List Json) :=
  if (apiKey.getD "").pyStrip = "" then none
  else
    match llmResp with
    | .error _ => none
    | .ok data =>
      match llmCand data with
      | .arr xs =>
        if xs.isEmpty then none
        else
          match llmClean xs with
          | .ok cleaned => some cleaned
          | .error _ => none
      | _ => none

/-- `extract_rubric_from_text` (rubric_extract.py lines 150-160). -/
def extract_rubric_from_text (apiKey : Option String) (llmResp : Except String Json)
    (text : String) : Except Unit (List Json) :=
  let t := text.pyStrip
  if t = "" then .ok []
  else
    match llm_extract apiKey llmResp with
    | some l => if l.isEmpty then heuristic_extract t else .ok l
    | none => heuristic_extract t

/-! ## `app.py` — rubric store endpoints -/

/-- A row of the `rubric_version` table (`models.py` lines 40-45):
append-only snapshots `{id, created_by, rubric_json}` (`created_at` is not
observed by any claim and is omitted). -/
structure VersionRec where
  id : Int
  createdBy : Option Int
  rubricJson : String
deriving Repr, DecidableEq

/-- The rubric store: the decoded content of `rubric_master.json` plus the
`rubric_version` table, with the autoincrement primary-key counter. -/
structure RubricStore where
  active : Json
  versions : List VersionRec
  nextId : Int

/-- Minimal string escaping for the `json.dumps` model (control-character
escapes elided; no claim observes the serialized text). -/
def jsonEscape (s : String) : String :=
  s.data.foldl (fun acc c =>
    if c = '"' ∨ c = '\\' then acc ++ "\\" ++ String.mk [c] else acc ++ String.mk [c]) ""

mutual

/-- Model of `json.dumps(·, ensure_ascii=False)` with the default
separators. -/
def jsonDumps : Json → String
  | .null => "null"
  | .bool true => "true"
  | .bool false => "false"
  | .num q => ratRepr q
  | .str s => "\"" ++ jsonEscape s ++ "\""
  | .arr xs => "[" ++ jsonDumpsList xs ++ "]"
  | .obj fs => "\x7b" ++ jsonDumpsFields fs ++ "\x7d"

def jsonDumpsList : List Json → String
  | [] => ""
  | [x] => jsonDumps x
  | x :: y :: rest => jsonDumps x ++ ", " ++ jsonDumpsList (y :: rest)

def jsonDumpsFields : List (String × Json) → String
  | [] => ""
  | [f] => "\"" ++ jsonEscape f.1 ++ "\": " ++ jsonDumps f.2
  | f :: g :: rest =>
      "\"" ++ jsonEscape f.1 ++ "\": " ++ jsonDumps f.2 ++ ", " ++
        jsonDumpsFields (g :: rest)

end

/-- `POST /save_WRITING_RUBRICs` (`save_rubrics`, app.py lines 266-285),
after the admin check.  `body` is the outcome of
`request.get_json(force=True)` (error = the parse exception's text).
Result: `(status, message)` and the store afterwards.  The version-table
commit's own failure is swallowed by the source (`except: rollback()`);
the database is modelled as healthy, so the commit succeeds. -/
def save_rubrics (body : Except String Json) (user : Option Int) (st : RubricStore) :
    (Nat × String) × RubricStore :=
  match body with
  | .error e => ((400, e), st)
  | .ok data =>
    match data with
    | .arr _ =>
      ((200, "Rubrics saved"),
        { active := data
          versions := st.versions ++ [⟨st.nextId, user, jsonDumps data⟩]
          nextId := st.nextId + 1 })
    | _ => ((400, "Body must be a JSON array of rubrics"), st)

/-- Digits-only integer literal, as Python `int(<str>)` accepts. -/
def pyParseIntStr (s : String) : Option Int :=
  let cs := s.pyStrip.data
  let signed : Int × List Char :=
    match cs with
    | '+' :: r => (1, r)
    | '-' :: r => (-1, r)
    | r => (1, r)
  if ¬ signed.2.isEmpty ∧ signed.2.all Char.isDigit then
    some (signed.1 * digitsVal signed.2)
  else none

/-- Truncation toward zero (Python `int(<float>)`). -/
def ratTrunc (q : ℚ) : Int := if 0 ≤ q then ⌊q⌋ else -⌊-q⌋

/-- Python `int(x)` on a JSON value. -/
def pyInt : Json → Except Unit Int
  | .num q => .ok (ratTrunc q)
  | .bool b => .ok (if b then 1 else 0)
  | .str s =>
      match pyParseIntStr s with
      | some n => .ok n
      | none => .error ()
  | _ => .error ()

/-- `POST /rubric/rollback` (`rubric_rollback`, app.py lines 340-364),
after the admin check.  `loads` is the embedding of `json.loads` on the
stored snapshot text (`none` = the snapshot is not valid JSON); `body` is
the `request.get_json(force=True)` outcome.  As in `save_rubrics`, the
version-table commit is modelled as succeeding.
`rollbackVid` is the `int(body.get("version_id"))` extraction (app.py
lines 343-347), whose failure produces the 400 response. -/
def rollbackVid (body : Except String Json) : Except Unit Int :=
  match body with
  | .error _ => .error ()
  | .ok j => do
    let v ← pyGet (pyOr j (.obj [])) "version_id"
    pyInt v

/-- `POST /rubric/rollback` proper: version lookup, snapshot decode, file
replace, and history append (app.py lines 348-364). -/
def rubric_rollback (loads : String → Option Json) (body : Except String Json)
    (user : Option Int) (st : RubricStore) : (Nat × String) × RubricStore :=
  match rollbackVid body with
  | .error _ => ((400, "version_id is required"), st)
  | .ok vid =>
    match st.versions.find? (fun r => r.id = vid) with
    | none => ((404, "Version not found"), st)
    | some r =>
      match loads r.rubricJson with
      | none => ((400, "Stored version JSON invalid"), st)
      | some decoded =>
        ((200, "Rolled back to selected version"),
          { active := decoded
            versions := st.versions ++ [⟨st.nextId, user, r.rubricJson⟩]
            nextId := st.nextId + 1 })

/-! ## Supporting lemmas -/

theorem assocGet_set {α : Type} (d : List (String × α)) (k : String) (v : α) :
    assocGet (assocSet d k v) k = some v := by
  induction d with
  | nil => simp [assocSet, assocGet]
  | cons hd tl ih =>
    by_cases h : hd.1 = k
    · simp [assocSet, h, assocGet]
    · simp [assocSet, h, assocGet, ih]

theorem assocSet_mem {α : Type} (d : List (String × α)) (k : String) (v : α)
    (n : String) (e : α) (h : (n, e) ∈ assocSet d k v) :
    (n, e) ∈ d ∨ (n = k ∧ e = v) := by
  induction d with
  | nil => simp [assocSet] at h; exact Or.inr h
  | cons hd tl ih =>
    by_cases hk : hd.1 = k
    · simp [assocSet, hk] at h
      rcases h with ⟨h1, h2⟩ | h
      · exact Or.inr ⟨h1, h2⟩
      · exact Or.inl (List.mem_cons_of_mem _ h)
    · simp [assocSet, hk] at h
      rcases h with h | h
      · exact Or.inl (by simp [h])
      · rcases ih h with h' | h'
        · exact Or.inl (List.mem_cons_of_mem _ h')
        · exact Or.inr h'

theorem assocSet_fresh {α : Type} (d : List (String × α)) (k : String) (v : α)
    (h : ∀ p ∈ d, p.1 ≠ k) : assocSet d k v = d ++ [(k, v)] := by
  induction d with
  | nil => simp [assocSet]
  | cons hd tl ih =>
    have hne : hd.1 ≠ k := h hd (List.mem_cons_self hd tl)
    simp [assocSet, hne]
    exact ih fun p hp => h p (List.mem_cons_of_mem _ hp)

theorem pure_eq_ok {ε α : Type} (a : α) : (pure a : Except ε α) = Except.ok a := rfl

theorem max_points_for_item_obj (fs : List (String × Json)) :
    ∃ q, max_points_for_item (.obj fs) = .ok q := by
  unfold max_points_for_item
  rcases h : (assocGet fs "max_points").getD Json.null with _ | b | q | s | xs | gs
  all_goals simp [pyGet, h, bind, Except.bind, pure_eq_ok]
  all_goals rcases h2 : (assocGet fs "scoringCriteria").getD Json.null with _ | b2 | q2 | s2 | xs2 | gs2
  all_goals simp [pure_eq_ok]

theorem sectionTrimmedName_obj (fs : List (String × Json)) :
    ∃ n, sectionTrimmedName (.obj fs) = .ok n := by
  exact ⟨_, rfl⟩

theorem skelAux_ok (rubric : List Json) (hr : ∀ r ∈ rubric, ∃ fs, r = Json.obj fs) :
    ∀ d, ∃ sk, skelAux d rubric = .ok sk := by
  induction rubric with
  | nil => intro d; exact ⟨d, rfl⟩
  | cons r rs ih =>
    intro d
    obtain ⟨fs, rfl⟩ := hr r (List.mem_cons_self r rs)
    have hr' : ∀ x ∈ rs, ∃ g, x = Json.obj g := fun x hx => hr x (List.mem_cons_of_mem _ hx)
    obtain ⟨mq, hmq⟩ := max_points_for_item_obj fs
    by_cases hname : (pyStr (pyOr ((assocGet fs "name").getD Json.null) (.str ""))).pyStrip = ""
    · obtain ⟨sk, hsk⟩ := ih hr' d
      exact ⟨sk, by
        simp [skelAux, sectionTrimmedName, pyGet, bind, Except.bind, pure_eq_ok, hname, hsk]⟩
    · obtain ⟨sk, hsk⟩ := ih hr'
        (assocSet d ((pyStr (pyOr ((assocGet fs "name").getD Json.null) (.str ""))).pyStrip) ⟨0, mq⟩)
      exact ⟨sk, by
        simp [skelAux, sectionTrimmedName, pyGet, bind, Except.bind, pure_eq_ok, hname, hmq, hsk]⟩

theorem build_scores_skeleton_ok (rubric : List Json)
    (hr : ∀ r ∈ rubric, ∃ fs, r = Json.obj fs) :
    ∃ sk, build_scores_skeleton rubric = .ok sk :=
  skelAux_ok rubric hr []

theorem skelAux_eq (rubric : List Json) :
    ∀ (names : List String) (totals : List ℚ) (d : List (String × ScoreEntry)),
    mapE sectionTrimmedName rubric = .ok names →
    mapE max_points_for_item rubric = .ok totals →
    (∀ n ∈ names, n ≠ "") →
    (names ++ d.map Prod.fst).Nodup →
    skelAux d rubric = .ok (d ++ names.zip (totals.map fun t => (⟨0, t⟩ : ScoreEntry))) := by
  induction rubric with
  | nil =>
    intro names totals d h1 h2 _ _
    simp only [mapE, Except.ok.injEq] at h1 h2
    subst h1; subst h2
    simp [skelAux]
  | cons r rs ih =>
    intro names totals d h1 h2 hne hnd
    cases hn : sectionTrimmedName r with
    | error e => simp [mapE, hn, bind, Except.bind] at h1
    | ok n =>
      cases hns : mapE sectionTrimmedName rs with
      | error e => simp [mapE, hn, hns, bind, Except.bind] at h1
      | ok ns =>
        cases ht : max_points_for_item r with
        | error e => simp [mapE, ht, bind, Except.bind] at h2
        | ok t =>
          cases hts : mapE max_points_for_item rs with
          | error e => simp [mapE, ht, hts, bind, Except.bind] at h2
          | ok ts =>
            simp only [mapE, hn, hns, bind, Except.bind, pure_eq_ok, Except.ok.injEq] at h1
            simp only [mapE, ht, hts, bind, Except.bind, pure_eq_ok, Except.ok.injEq] at h2
            subst h1; subst h2
            have hnstr : n ≠ "" := hne n (List.mem_cons_self _ _)
            have hnd0 := hnd
            simp only [List.cons_append, List.nodup_cons, List.mem_append] at hnd0
            have hn_ns : n ∉ ns := fun h => hnd0.1 (Or.inl h)
            have hn_dk : n ∉ List.map Prod.fst d := fun h => hnd0.1 (Or.inr h)
            have h2' := hnd0.2
            rw [List.nodup_append] at h2'
            obtain ⟨hns_nd, hdk_nd, hdisj⟩ := h2'
            have hfresh : ∀ p ∈ d, p.1 ≠ n := by
              intro p hp hpn
              exact hn_dk (hpn ▸ List.mem_map_of_mem Prod.fst hp)
            have hset : assocSet d n (⟨0, t⟩ : ScoreEntry) = d ++ [(n, ⟨0, t⟩)] :=
              assocSet_fresh d n _ hfresh
            have hne' : ∀ m ∈ ns, m ≠ "" := fun m hm => hne m (List.mem_cons_of_mem _ hm)
            have hnd' : (ns ++ (d ++ [(n, (⟨0, t⟩ : ScoreEntry))]).map Prod.fst).Nodup := by
              rw [List.map_append, List.map_cons, List.map_nil, List.nodup_append]
              refine ⟨hns_nd, ?_, ?_⟩
              · rw [List.nodup_append]
                refine ⟨hdk_nd, List.nodup_singleton n, ?_⟩
                intro a ha hb
                rw [List.mem_singleton] at hb
                cases hb
                exact hn_dk ha
              · intro a ha hb
                rw [List.mem_append, List.mem_singleton] at hb
                rcases hb with hb | hb
                · exact hdisj ha hb
                · cases hb
                  exact hn_ns ha
            have hrec := ih ns ts (d ++ [(n, ⟨0, t⟩)]) hns hts hne' hnd'
            show skelAux d (r :: rs) = _
            rw [skelAux, hn]
            simp only [bind, Except.bind, if_neg hnstr, ht, hset, hrec]
            simp [List.append_assoc]

theorem capsStep_loopSt (name : String) (st2 : LoopSt) (w' : Json) :
    (capsStep name st2 w').1.scores = st2.scores ∧
    (capsStep name st2 w').1.evidence = st2.evidence ∧
    (capsStep name st2 w').1.earned = st2.earned ∧
    (capsStep name st2 w').1.maxTotal = st2.maxTotal := by
  cases h : rowCaps w' <;> simp [capsStep, h]

theorem capsStep_scores (name : String) (st2 : LoopSt) (w' : Json) :
    (capsStep name st2 w').1.scores = st2.scores := (capsStep_loopSt name st2 w').1

theorem capsStep_evidence (name : String) (st2 : LoopSt) (w' : Json) :
    (capsStep name st2 w').1.evidence = st2.evidence := (capsStep_loopSt name st2 w').2.1

theorem capsStep_earned (name : String) (st2 : LoopSt) (w' : Json) :
    (capsStep name st2 w').1.earned = st2.earned := (capsStep_loopSt name st2 w').2.2.1

theorem capsStep_maxTotal (name : String) (st2 : LoopSt) (w' : Json) :
    (capsStep name st2 w').1.maxTotal = st2.maxTotal := (capsStep_loopSt name st2 w').2.2.2

theorem processRow_main (strict : Bool) (st : LoopSt) (w : Json)
    (name : String) (s t : ℚ) (quotes : List String)
    (h1 : rowName w = .ok name) (hname : name ≠ "") (h2 : rowScore w = .ok s)
    (h3 : rowTotal w = .ok t) (h4 : rowQuotes w = .ok quotes) :
    (processRow strict st w).1.scores =
      assocSet st.scores name ⟨penalizedScore strict s quotes, t⟩ ∧
    (processRow strict st w).1.evidence = addQuotes st.evidence (quotes.take 2) ∧
    (processRow strict st w).1.earned = st.earned + penalizedScore strict s quotes ∧
    (processRow strict st w).1.maxTotal = st.maxTotal + t := by
  simp [processRow, h1, hname, h2, h3, h4,
    capsStep_scores, capsStep_evidence, capsStep_earned, capsStep_maxTotal]

theorem processRow_shape (strict : Bool) (st : LoopSt) (w : Json) :
    ((processRow strict st w).1.scores = st.scores ∧
     (processRow strict st w).1.evidence = st.evidence) ∨
    (∃ name s t quotes,
      rowName w = .ok name ∧ rowScore w = .ok s ∧ rowTotal w = .ok t ∧
      rowQuotes w = .ok quotes ∧
      (processRow strict st w).1.scores =
        assocSet st.scores name ⟨penalizedScore strict s quotes, t⟩ ∧
      (processRow strict st w).1.evidence = addQuotes st.evidence (quotes.take 2)) := by
  cases h1 : rowName w with
  | error u => left; constructor <;> simp [processRow, h1]
  | ok name =>
    by_cases hname : name = ""
    · left; constructor <;> simp [processRow, h1, hname]
    · cases h2 : rowScore w with
      | error u => left; constructor <;> simp [processRow, h1, hname, h2]
      | ok s =>
        cases h3 : rowTotal w with
        | error u => left; constructor <;> simp [processRow, h1, hname, h2, h3]
        | ok t =>
          cases h4 : rowQuotes w with
          | error u => left; constructor <;> simp [processRow, h1, hname, h2, h3, h4]
          | ok quotes =>
            right
            obtain ⟨hs, he, _, _⟩ := processRow_main strict st w name s t quotes h1 hname h2 h3 h4
            refine ⟨name, s, t, quotes, ?_, ?_, ?_, ?_, ?_, ?_⟩ <;> first | rfl | assumption

theorem addQuotes_suffix (qs : List String) :
    ∀ acc, ∃ suffix, addQuotes acc qs = acc ++ suffix := by
  induction qs with
  | nil => intro acc; exact ⟨[], by simp [addQuotes]⟩
  | cons q rest ih =>
    intro acc
    by_cases h : q.pyStrip ≠ "" ∧ ¬ q.pyStrip ∈ acc
    · obtain ⟨suffix, hs⟩ := ih (acc ++ [q.pyStrip])
      exact ⟨[q.pyStrip] ++ suffix, by
        simp only [addQuotes, List.foldl_cons, if_pos h] at *
        rw [hs, List.append_assoc]⟩
    · obtain ⟨suffix, hs⟩ := ih acc
      exact ⟨suffix, by simp only [addQuotes, List.foldl_cons, if_neg h] at *; exact hs⟩

theorem addQuotes_nodup (qs : List String) :
    ∀ acc, acc.Nodup → (addQuotes acc qs).Nodup := by
  induction qs with
  | nil => intro acc h; simpa [addQuotes] using h
  | cons q rest ih =>
    intro acc hacc
    by_cases h : q.pyStrip ≠ "" ∧ ¬ q.pyStrip ∈ acc
    · have : (acc ++ [q.pyStrip]).Nodup := by
        rw [List.nodup_append]
        refine ⟨hacc, List.nodup_singleton _, ?_⟩
        intro a ha hb
        rw [List.mem_singleton] at hb
        exact h.2 (hb ▸ ha)
      simpa only [addQuotes, List.foldl_cons, if_pos h] using ih (acc ++ [q.pyStrip]) this
    · simpa only [addQuotes, List.foldl_cons, if_neg h] using ih acc hacc

theorem addQuotes_mem (qs : List String) :
    ∀ acc q, q ∈ addQuotes acc qs → q ∈ acc ∨ ∃ raw ∈ qs, q = raw.pyStrip := by
  induction qs with
  | nil => intro acc q h; exact Or.inl (by simpa [addQuotes] using h)
  | cons q0 rest ih =>
    intro acc q h
    by_cases hc : q0.pyStrip ≠ "" ∧ ¬ q0.pyStrip ∈ acc
    · simp only [addQuotes, List.foldl_cons, if_pos hc] at h
      rcases ih (acc ++ [q0.pyStrip]) q h with h' | ⟨raw, hraw, hq⟩
      · rw [List.mem_append, List.mem_singleton] at h'
        rcases h' with h' | h'
        · exact Or.inl h'
        · exact Or.inr ⟨q0, List.mem_cons_self _ _, h'⟩
      · exact Or.inr ⟨raw, List.mem_cons_of_mem _ hraw, hq⟩
    · simp only [addQuotes, List.foldl_cons, if_neg hc] at h
      rcases ih acc q h with h' | ⟨raw, hraw, hq⟩
      · exact Or.inl h'
      · exact Or.inr ⟨raw, List.mem_cons_of_mem _ hraw, hq⟩

theorem processRows_scores_mem (strict : Bool) (rows : List Json) :
    ∀ st n e, (n, e) ∈ (processRows strict st rows).1.scores →
      (n, e) ∈ st.scores ∨
        ∃ w ∈ rows, ∃ s quotes,
          rowName w = .ok n ∧ rowScore w = .ok s ∧ rowTotal w = .ok e.total ∧
          rowQuotes w = .ok quotes ∧ e.score = penalizedScore strict s quotes := by
  induction rows with
  | nil => intro st n e h; exact Or.inl (by simpa [processRows] using h)
  | cons w ws ih =>
    intro st n e h
    simp only [processRows] at h
    rcases ih (processRow strict st w).1 n e h with h' | ⟨w', hw', rest⟩
    · rcases processRow_shape strict st w with ⟨hs, _⟩ | ⟨name, s, t, quotes, r1, r2, r3, r4, hs, _⟩
      · exact Or.inl (hs ▸ h')
      · rw [hs] at h'
        rcases assocSet_mem _ _ _ _ _ h' with h'' | ⟨rfl, rfl⟩
        · exact Or.inl h''
        · exact Or.inr ⟨w, List.mem_cons_self _ _, s, quotes, r1, r2, r3, r4, rfl⟩
    · exact Or.inr ⟨w', List.mem_cons_of_mem _ hw', rest⟩

theorem processRows_evidence_suffix (strict : Bool) (rows : List Json) :
    ∀ st, ∃ suffix, (processRows strict st rows).1.evidence = st.evidence ++ suffix := by
  induction rows with
  | nil => intro st; exact ⟨[], by simp [processRows]⟩
  | cons w ws ih =>
    intro st
    obtain ⟨suf2, h2⟩ := ih (processRow strict st w).1
    simp only [processRows]
    rcases processRow_shape strict st w with ⟨_, he⟩ | ⟨name, s, t, quotes, _, _, _, _, _, he⟩
    · exact ⟨suf2, by rw [h2, he]⟩
    · obtain ⟨suf1, h1⟩ := addQuotes_suffix (quotes.take 2) st.evidence
      exact ⟨suf1 ++ suf2, by rw [h2, he, h1, List.append_assoc]⟩

theorem processRows_evidence_nodup (strict : Bool) (rows : List Json) :
    ∀ st, st.evidence.Nodup → (processRows strict st rows).1.evidence.Nodup := by
  induction rows with
  | nil => intro st h; simpa [processRows] using h
  | cons w ws ih =>
    intro st h
    simp only [processRows]
    apply ih
    rcases processRow_shape strict st w with ⟨_, he⟩ | ⟨name, s, t, quotes, _, _, _, _, _, he⟩
    · exact he ▸ h
    · exact he ▸ addQuotes_nodup (quotes.take 2) st.evidence h

theorem processRows_evidence_mem (strict : Bool) (rows : List Json) :
    ∀ st q, q ∈ (processRows strict st rows).1.evidence →
      q ∈ st.evidence ∨
        ∃ w ∈ rows, ∃ qs, rowQuotes w = .ok qs ∧ ∃ raw ∈ qs.take 2, q = raw.pyStrip := by
  induction rows with
  | nil => intro st q h; exact Or.inl (by simpa [processRows] using h)
  | cons w ws ih =>
    intro st q h
    simp only [processRows] at h
    rcases ih (processRow strict st w).1 q h with h' | ⟨w', hw', rest⟩
    · rcases processRow_shape strict st w with ⟨_, he⟩ | ⟨name, s, t, quotes, _, _, _, r4, _, he⟩
      · exact Or.inl (he ▸ h')
      · rw [he] at h'
        rcases addQuotes_mem (quotes.take 2) st.evidence q h' with h'' | ⟨raw, hraw, hq⟩
        · exact Or.inl h''
        · exact Or.inr ⟨w, List.mem_cons_self _ _, quotes, r4, raw, hraw, hq⟩
    · exact Or.inr ⟨w', List.mem_cons_of_mem _ hw', rest⟩

/-- `true` exactly when a computation did not raise. -/
def isOkE {ε α : Type} : Except ε α → Bool
  | .ok _ => true
  | .error _ => false

/-- Shape conditions on a decoded LLM response under which the
post-processing path of `generate_feedback` raises no exception: the top
level is an object, its (truthy-defaulted) `writing` member is iterable,
and the overall-summary extraction succeeds. -/
def responseShapeOk (data : Json) : Prop :=
  (∃ fs, data = Json.obj fs) ∧
  (∀ wraw, pyGet data "writing" = .ok wraw →
    ∃ rows, pyIter (pyOr wraw (.arr [])) = .ok rows) ∧
  (∃ s, computeSummary data = .ok s)

/-- C1 (amended): `generate_feedback` raises no exception and degrades
locally, PROVIDED every rubric item is a dict and the decoded response is
an object whose `writing` member (when truthy) is iterable and whose
`overall` member (when truthy) is a dict.  Part 1: any LLM-call/JSON-parse
failure yields exactly the Degraded result (fixed message embedding the
error, zeroed skeleton, fixed summary, no quotes).  Part 2: under the
shape conditions the call returns without raising (failing rows are
skipped by the loop, which is total).  The unamended claim — no exception
for *every* syntactically valid JSON response — is refuted by
`c1_counterexample`. -/
theorem c1_amended :
    (∀ (apiKey strictEnv : Option String) (e : String) (message : String)
       (rubric : List Json) (sk : List (String × ScoreEntry)),
       message.pyStrip ≠ "" → (apiKey.getD "").pyStrip ≠ "" →
       build_scores_skeleton rubric = .ok sk →
       generate_feedback apiKey strictEnv (.error e) message rubric =
         .ok ⟨degradedMsg e, sk, "Model error; no scores.", []⟩) ∧
    (∀ (apiKey strictEnv : Option String) (llm : Except String Json)
       (message : String) (rubric : List Json),
       (∀ r ∈ rubric, ∃ fs, r = Json.obj fs) →
       (∀ data, llm = .ok data → responseShapeOk data) →
       isOkE (generate_feedback apiKey strictEnv llm message rubric) = true) := by
  constructor
  · intro apiKey strictEnv e message rubric sk hmsg hkey hsk
    simp [generate_feedback, hmsg, hkey, hsk, bind, Except.bind, pure_eq_ok]
  · intro apiKey strictEnv llm message rubric hrub hshape
    by_cases hmsg : message.pyStrip = ""
    · obtain ⟨sk, hsk⟩ := build_scores_skeleton_ok rubric hrub
      simp [generate_feedback, hmsg, hsk, bind, Except.bind, pure_eq_ok, isOkE]
    · by_cases hkey : (apiKey.getD "").pyStrip = ""
      · obtain ⟨sk, hsk⟩ := build_scores_skeleton_ok rubric hrub
        simp [generate_feedback, hmsg, hkey, hsk, bind, Except.bind, pure_eq_ok, isOkE]
      · cases llm with
        | error e =>
          obtain ⟨sk, hsk⟩ := build_scores_skeleton_ok rubric hrub
          simp [generate_feedback, hmsg, hkey, hsk, bind, Except.bind, pure_eq_ok, isOkE]
        | ok data =>
          obtain ⟨⟨fs, rfl⟩, hwriting, ⟨sum, hsum⟩⟩ := hshape data rfl
          obtain ⟨rows, hrows⟩ :=
            hwriting ((assocGet fs "writing").getD Json.null) rfl
          by_cases hempty :
              (processRows (strictFlag strictEnv) initLoopSt rows).1.scores.isEmpty
          · obtain ⟨sk, hsk⟩ := build_scores_skeleton_ok rubric hrub
            simp [generate_feedback, hmsg, hkey, pyGet, hrows, hsum, hempty, hsk,
              bind, Except.bind, pure_eq_ok, isOkE]
          · simp [generate_feedback, hmsg, hkey, pyGet, hrows, hsum, hempty,
              bind, Except.bind, pure_eq_ok, isOkE]

/-- C1 counterexample: with a non-empty message and a configured key, a
syntactically valid JSON response whose top level is an array (not an
object) makes `generate_feedback` raise (`AttributeError` from
`data.get("writing")`) rather than degrade — refuting the claim's
"whatever its top-level shape" guarantee. -/
theorem c1_counterexample :
    generate_feedback (some "key") none (.ok (Json.arr [])) "report text" [] =
      .error () := rfl

/-- Witness: both parts of `c1_amended` applied at concrete inputs. -/
theorem c1_witness :
    generate_feedback (some "k") none (.error "boom") "text" [] =
      .ok ⟨degradedMsg "boom", [], "Model error; no scores.", []⟩ ∧
    isOkE (generate_feedback (some "k") none
      (.ok (Json.obj [("writing", Json.arr []),
                      ("overall", Json.obj [("notes", Json.str "ok")])]))
      "text" []) = true := by
  constructor
  · exact c1_amended.1 (some "k") none "boom" "text" [] []
      (by decide) (by decide) rfl
  · refine c1_amended.2 (some "k") none _ "text" [] ?_ ?_
    · intro r hr; cases hr
    · intro data hd
      cases hd
      refine ⟨⟨_, rfl⟩, ?_, ⟨_, rfl⟩⟩
      intro wraw hw
      have h0 : Except.ok (ε := Unit) (Json.arr []) = Except.ok wraw := hw
      cases h0
      exact ⟨[], rfl⟩

/-- The C2 scenario rubric: one section "Executive Summary" with criteria
points 4 and 0 (maxPoints = 4). -/
def c2Rubric : List Json :=
  [.obj [("name", .str "Executive Summary"),
         ("scoringCriteria",
           .arr [.obj [("points", .num 4), ("description", .str "full")],
                 .obj [("points", .num 0), ("description", .str "none")]])]]

/-- The C2 scenario LLM response: one writing row with score 4, total 4
and no evidence quotes, plus overall notes "ok". -/
def c2Data : Json :=
  .obj [("writing", .arr [.obj [("name", .str "Executive Summary"),
                                ("score", .num 4), ("total", .num 4),
                                ("evidence_quotes", .arr [])]]),
        ("overall", .obj [("notes", .str "ok")])]

/-- C2 counterexample: on the claim's exact scenario (strictness enabled,
score 4, no evidence), the section's entry is `{score: 3.6, total: 4}` —
the source multiplies by 0.9, not the claimed 0.8, so the score is not
3.2. -/
theorem c2_counterexample :
    Except.map (fun res => assocGet res.scores "Executive Summary")
      (generate_feedback (some "sk-test") none (.ok c2Data) "My report text." c2Rubric) =
      .ok (some ⟨18 / 5, 4⟩) ∧ (18 / 5 : ℚ) ≠ 3.2 := by
  constructor
  · with_unfolding_all rfl
  · with_unfolding_all decide

/-- C2 (amended): same scenario, actual behaviour — the penalty factor is
0.9, the entry is `{score: 3.6, total: 4}`, and the report's total line
reads `4/4` (the `.0f` formatting rounds earned 3.6 and max 4.0 to whole
numbers), not `3.2/4.0`. -/
theorem c2_amended :
    generate_feedback (some "sk-test") none (.ok c2Data) "My report text." c2Rubric =
      .ok ⟨"**Final Report Feedback**\n**Total Score**: 4/4\n\n**Overall Summary**\nDraft scores **4/4**. To reach Exemplary, fix gated items first, then raise weakest sections.\n**Highlights:** Executive Summary\n\n\n**Per-Rubric Breakdown**\n **Executive Summary**: 4/4",
          [("Executive Summary", ⟨18 / 5, 4⟩)], "ok", []⟩ := by
  with_unfolding_all rfl

/-- The C3 scenario rubric section: "Executive Summary" with computed
maxPoints 4. -/
def c3Section : Json :=
  .obj [("name", .str "Executive Summary"),
        ("scoringCriteria",
          .arr [.obj [("points", .num 4), ("description", .str "full")],
                .obj [("points", .num 0), ("description", .str "none")]])]

/-- The C3 scenario response: the row reports `total = 100`, which the
rubric does not support (its maxPoints is 4). -/
def c3Data : Json :=
  .obj [("writing", .arr [.obj [("name", .str "Executive Summary"),
                                ("score", .num 1), ("total", .num 100)]])]

/-- C3 counterexample: the entry stored for "Executive Summary" carries
`total = 100` straight from the LLM response row, while the active
rubric's computed maxPoints for that section is 4 — so `total` does not
equal the section's maxPoints at evaluation time.  (The score shown is
0.9 because the strict-evidence penalty fires on the quote-less row.) -/
theorem c3_counterexample :
    Except.map (fun res => assocGet res.scores "Executive Summary")
      (generate_feedback (some "sk-test") none (.ok c3Data) "My report text." [c3Section]) =
      .ok (some ⟨9 / 10, 100⟩) ∧
    max_points_for_item c3Section = .ok 4 ∧ (100 : ℚ) ≠ 4 := by
  refine ⟨?_, ?_, ?_⟩
  · with_unfolding_all rfl
  · with_unfolding_all rfl
  · with_unfolding_all decide

/-- C3 (amended): the `total` of every entry the row loop places in the
scores map is the row's own coerced `total` field from the LLM response
(for some response row carrying the entry's name) — the rubric's
maxPoints plays no part on the success path (it is used only for the
skeleton fallbacks). -/
theorem c3_amended (strict : Bool) (rows : List Json) (n : String) (e : ScoreEntry)
    (h : (n, e) ∈ (processRows strict initLoopSt rows).1.scores) :
    ∃ w ∈ rows, rowName w = .ok n ∧ rowTotal w = .ok e.total := by
  rcases processRows_scores_mem strict rows initLoopSt n e h with h' | ⟨w, hw, s, q, r1, _, r3, _, _⟩
  · simp [initLoopSt] at h'
  · exact ⟨w, hw, r1, r3⟩

/-- Witness: `c3_amended` applied to a concrete one-row response. -/
theorem c3_witness :
    ∃ w ∈ [Json.obj [("name", Json.str "A"), ("score", Json.num 2), ("total", Json.num 7)]],
      rowName w = .ok "A" ∧ rowTotal w = .ok (7 : ℚ) := by
  have h : ("A", (⟨2, 7⟩ : ScoreEntry)) ∈
      (processRows false initLoopSt
        [Json.obj [("name", Json.str "A"), ("score", Json.num 2), ("total", Json.num 7)]]).1.scores := by
    with_unfolding_all decide
  exact c3_amended false _ "A" ⟨2, 7⟩ h

/-- The C4 scenario response: a row reporting a negative score. -/
def c4Data : Json :=
  .obj [("writing", .arr [.obj [("name", .str "A"),
                                ("score", .num (-3)), ("total", .num 4)]])]

/-- C4 counterexample: the pipeline applies no clamp, so a response row
with `score = -3` produces the entry `{score: -3, total: 4}` — a negative
score in the returned map, refuting `score ∈ [0, total]` over all LLM
responses. -/
theorem c4_counterexample :
    Except.map (fun res => assocGet res.scores "A")
      (generate_feedback (some "sk-test") none (.ok c4Data) "My report text." []) =
      .ok (some ⟨-3, 4⟩) ∧ ¬ (0 : ℚ) ≤ -3 := by
  constructor
  · with_unfolding_all rfl
  · with_unfolding_all decide

/-- C4 (amended): `score ∈ [0, total]` holds for every entry PROVIDED the
model respects it row-wise — when every row's coerced score lies within
`[0, its own coerced total]`, every entry of the resulting scores map
satisfies `0 ≤ score ≤ total` (the evidence penalty only shrinks a
positive score).  Without that proviso nothing clamps, as
`c4_counterexample` shows. -/
theorem c4_amended (strict : Bool) (rows : List Json)
    (hrange : ∀ w ∈ rows, ∀ s t, rowScore w = .ok s → rowTotal w = .ok t →
      0 ≤ s ∧ s ≤ t)
    (n : String) (e : ScoreEntry)
    (h : (n, e) ∈ (processRows strict initLoopSt rows).1.scores) :
    0 ≤ e.score ∧ e.score ≤ e.total := by
  rcases processRows_scores_mem strict rows initLoopSt n e h with
    h' | ⟨w, hw, s, quotes, _, r2, r3, _, hscore⟩
  · simp [initLoopSt] at h'
  · obtain ⟨hs0, hst⟩ := hrange w hw s e.total r2 r3
    rw [hscore]
    unfold penalizedScore
    by_cases hp : (strict && decide (0 < s) && quotes.isEmpty) = true
    · rw [if_pos hp]
      constructor
      · positivity
      · nlinarith
    · rw [if_neg hp]
      exact ⟨hs0, hst⟩

/-- Witness: `c4_amended` applied to a concrete in-range one-row
response. -/
theorem c4_witness :
    (0 : ℚ) ≤ (ScoreEntry.mk (9 / 5) 7).score ∧
      (ScoreEntry.mk (9 / 5) 7).score ≤ (ScoreEntry.mk (9 / 5) 7).total := by
  have hmem : ("A", (⟨9 / 5, 7⟩ : ScoreEntry)) ∈
      (processRows true initLoopSt
        [Json.obj [("name", Json.str "A"), ("score", Json.num 2),
                   ("total", Json.num 7)]]).1.scores := by
    with_unfolding_all decide
  refine c4_amended true _ ?_ "A" ⟨9 / 5, 7⟩ hmem
  intro w hw s t hs ht
  rw [List.mem_singleton] at hw
  subst hw
  have hs' : Except.ok (ε := Unit) (2 : ℚ) = Except.ok s := hs
  have ht' : Except.ok (ε := Unit) (7 : ℚ) = Except.ok t := ht
  cases hs'
  cases ht'
  constructor
  · norm_num
  · norm_num

/-- C5: with strictness enabled, a row whose coerced score is > 0 and
whose evidence-quote list is empty has its score multiplied by 0.9 before
being stored and accumulated: the entry written for the row and the
amount added to the running earned-total are both `s * 0.9`, which is
strictly less than the raw score and never negative. -/
theorem c5_penalty_strict (st : LoopSt) (w : Json) (n : String) (s t : ℚ)
    (h1 : rowName w = .ok n) (hn : n ≠ "") (h2 : rowScore w = .ok s)
    (hpos : 0 < s) (h3 : rowTotal w = .ok t) (h4 : rowQuotes w = .ok []) :
    assocGet (processRow true st w).1.scores n = some ⟨s * (9 / 10), t⟩ ∧
    (processRow true st w).1.earned = st.earned + s * (9 / 10) ∧
    s * (9 / 10) < s ∧ 0 ≤ s * (9 / 10) := by
  obtain ⟨hs, _, he, _⟩ := processRow_main true st w n s t [] h1 hn h2 h3 h4
  have hpen : penalizedScore true s [] = s * (9 / 10) := by
    simp [penalizedScore, hpos]
  refine ⟨?_, ?_, ?_, ?_⟩
  · rw [hs, hpen]
    exact assocGet_set _ _ _
  · rw [he, hpen]
  · nlinarith
  · positivity

/-- Witness: `c5_penalty_strict` at a concrete quote-less row with
score 4. -/
theorem c5_witness :
    assocGet (processRow true initLoopSt
        (Json.obj [("name", Json.str "A"), ("score", Json.num 4),
                   ("total", Json.num 4), ("evidence_quotes", Json.arr [])])).1.scores
        "A" = some ⟨4 * (9 / 10), 4⟩ ∧
    (processRow true initLoopSt
        (Json.obj [("name", Json.str "A"), ("score", Json.num 4),
                   ("total", Json.num 4), ("evidence_quotes", Json.arr [])])).1.earned =
      initLoopSt.earned + 4 * (9 / 10) ∧
    (4 : ℚ) * (9 / 10) < 4 ∧ (0 : ℚ) ≤ 4 * (9 / 10) := by
  exact c5_penalty_strict initLoopSt _ "A" 4 4
    (by with_unfolding_all rfl) (by decide)
    (by with_unfolding_all rfl) (by norm_num)
    (by with_unfolding_all rfl) (by with_unfolding_all rfl)

/-- C6 counterexample: a rubric whose single section is named `" A "` (a
non-empty name, hence a valid RubricSection) yields, on empty input, a
skeleton keyed by the trimmed string `"A"` — the key set does not exactly
match the rubric's section names. -/
theorem c6_counterexample :
    generate_feedback none none (.error "e") ""
        [Json.obj [("name", Json.str " A ")]] =
      .ok ⟨emptyMsg, [("A", ⟨0, 0⟩)], "No content to evaluate.", []⟩ ∧
    (" A " : String) ≠ "A" := by
  constructor
  · with_unfolding_all rfl
  · decide

/-- C6 (amended): for every rubric whose sections have pairwise-distinct,
non-empty *trimmed* names, and every empty-after-trim message,
`generate_feedback` returns the fixed empty-input message, the fixed
summary, no evidence quotes, and a skeleton with exactly one entry per
section, keyed by the section's **trimmed** name in rubric order, each
`{score: 0, total: the section's computed max points}`. -/
theorem c6_amended (apiKey strictEnv : Option String) (llm : Except String Json)
    (message : String) (rubric : List Json) (names : List String) (totals : List ℚ)
    (hmsg : message.pyStrip = "")
    (h1 : mapE sectionTrimmedName rubric = .ok names)
    (h2 : mapE max_points_for_item rubric = .ok totals)
    (hne : ∀ n ∈ names, n ≠ "")
    (hnd : names.Nodup) :
    generate_feedback apiKey strictEnv llm message rubric =
      .ok ⟨emptyMsg, names.zip (totals.map fun t => ⟨0, t⟩),
           "No content to evaluate.", []⟩ := by
  have hnd' : (names ++ ([] : List (String × ScoreEntry)).map Prod.fst).Nodup := by
    simpa using hnd
  have hsk := skelAux_eq rubric names totals [] h1 h2 hne hnd'
  rw [List.nil_append] at hsk
  simp [generate_feedback, hmsg, build_scores_skeleton, hsk, bind, Except.bind, pure_eq_ok]

/-- Witness: `c6_amended` on a concrete two-section rubric and a
whitespace-only message. -/
theorem c6_witness :
    generate_feedback (some "k") none (.error "boom") "   "
        [Json.obj [("name", Json.str "Alpha"),
                   ("scoringCriteria", Json.arr [.obj [("points", Json.num 4)]])],
         Json.obj [("name", Json.str "Beta"), ("max_points", Json.num 9)]] =
      .ok ⟨emptyMsg, [("Alpha", ⟨0, 4⟩), ("Beta", ⟨0, 9⟩)],
           "No content to evaluate.", []⟩ := by
  have h := c6_amended (some "k") none (.error "boom") "   "
    [Json.obj [("name", Json.str "Alpha"),
               ("scoringCriteria", Json.arr [.obj [("points", Json.num 4)]])],
     Json.obj [("name", Json.str "Beta"), ("max_points", Json.num 9)]]
    ["Alpha", "Beta"] [4, 9]
    (by with_unfolding_all rfl) (by with_unfolding_all rfl)
    (by with_unfolding_all rfl) (by decide) (by decide)
  simpa using h

/-- Row 1 of the C7 scenario: quote `" x "`. -/
def c7Row1 : Json :=
  .obj [("name", .str "A"), ("score", .num 1), ("total", .num 4),
        ("evidence_quotes", .arr [.str " x "])]

/-- Row 2 of the C7 scenario: the same quote `" x "` again. -/
def c7Row2 : Json :=
  .obj [("name", .str "B"), ("score", .num 1), ("total", .num 4),
        ("evidence_quotes", .arr [.str " x "])]

/-- The C7 scenario response: the same evidence-quote string in two
different rows. -/
def c7Data : Json := .obj [("writing", .arr [c7Row1, c7Row2])]

/-- C7 counterexample: both rows carry the quote string `" x "`, yet the
returned `evidenceQuotes` list is `["x"]` — the collection strips quotes
before deduplicating and storing them, so the string `" x "` appears zero
times (not exactly once). -/
theorem c7_counterexample :
    rowQuotes c7Row1 = .ok [" x "] ∧ rowQuotes c7Row2 = .ok [" x "] ∧
    Except.map (fun res => res.evidence)
      (generate_feedback (some "k") none (.ok c7Data) "text" []) = .ok ["x"] ∧
    ¬ (" x " : String) ∈ ["x"] := by
  refine ⟨rfl, rfl, ?_, by decide⟩
  with_unfolding_all rfl

/-- C7 (amended): the returned evidence list contains no duplicates; it
grows append-only across rows (each row's new quotes go after everything
already collected, preserving first-seen order); and every element is the
**stripped** form of one of the first two string quotes of some row — the
dedup-by-exact-match applies to stripped quotes, not the raw strings. -/
theorem c7_amended (strict : Bool) (rows : List Json) :
    (processRows strict initLoopSt rows).1.evidence.Nodup ∧
    (∀ st, ∃ suffix,
      (processRows strict st rows).1.evidence = st.evidence ++ suffix) ∧
    (∀ q ∈ (processRows strict initLoopSt rows).1.evidence,
      ∃ w ∈ rows, ∃ qs, rowQuotes w = .ok qs ∧
        ∃ raw ∈ qs.take 2, q = raw.pyStrip) := by
  refine ⟨?_, ?_, ?_⟩
  · exact processRows_evidence_nodup strict rows initLoopSt (by simp [initLoopSt])
  · exact processRows_evidence_suffix strict rows
  · intro q hq
    rcases processRows_evidence_mem strict rows initLoopSt q hq with h' | h'
    · simp [initLoopSt] at h'
    · exact h'

/-- Witness: `c7_amended` applied to the concrete two-row scenario,
discharging the membership hypothesis at the collected quote `"x"`. -/
theorem c7_witness :
    ∃ w ∈ [c7Row1, c7Row2], ∃ qs, rowQuotes w = .ok qs ∧
      ∃ raw ∈ qs.take 2, ("x" : String) = raw.pyStrip := by
  refine (c7_amended true [c7Row1, c7Row2]).2.2 "x" ?_
  with_unfolding_all decide

/-- C8 (amended): rubric replacement fails (HTTP 400, store untouched —
active rubric and version history unchanged) exactly when the body fails
to parse as JSON or parses to a non-array; EVERY decoded array — including
the empty array and arrays of invalid section objects — is accepted:
persisted as active, with a new version appended (history never edited in
place).  The claim's "non-empty ordered sequence of valid RubricSections"
precondition is not enforced, as `c8_counterexample` shows. -/
theorem c8_amended :
    (∀ (e : String) (user : Option Int) (st : RubricStore),
       save_rubrics (.error e) user st = ((400, e), st)) ∧
    (∀ (data : Json) (user : Option Int) (st : RubricStore),
       (∀ xs, data ≠ Json.arr xs) →
       save_rubrics (.ok data) user st =
         ((400, "Body must be a JSON array of rubrics"), st)) ∧
    (∀ (xs : List Json) (user : Option Int) (st : RubricStore),
       save_rubrics (.ok (.arr xs)) user st =
         ((200, "Rubrics saved"),
          ⟨Json.arr xs, st.versions ++ [⟨st.nextId, user, jsonDumps (.arr xs)⟩],
           st.nextId + 1⟩)) := by
  refine ⟨fun e user st => rfl, ?_, fun xs user st => rfl⟩
  intro data user st hna
  cases data with
  | arr xs => exact absurd rfl (hna xs)
  | null => rfl
  | bool b => rfl
  | num q => rfl
  | str s => rfl
  | obj fs => rfl

/-- C8 counterexample: the empty JSON array — not a non-empty sequence of
valid RubricSections — is accepted: the call reports success and the
empty array becomes the active rubric (and a version is appended), where
the claim demands a ValidationError with the store left unchanged. -/
theorem c8_counterexample :
    (save_rubrics (.ok (Json.arr [])) none ⟨Json.null, [], 1⟩).1 =
      (200, "Rubrics saved") ∧
    (save_rubrics (.ok (Json.arr [])) none ⟨Json.null, [], 1⟩).2.active =
      Json.arr [] ∧
    (save_rubrics (.ok (Json.arr [])) none ⟨Json.null, [], 1⟩).2.versions.length = 1 :=
  ⟨rfl, rfl, rfl⟩

/-- Witness: the non-array and parse-failure parts of `c8_amended` at
concrete inputs (an object body, and a JSON parse error). -/
theorem c8_witness :
    save_rubrics (.ok (Json.obj [])) none ⟨Json.null, [], 1⟩ =
      ((400, "Body must be a JSON array of rubrics"), ⟨Json.null, [], 1⟩) ∧
    save_rubrics (.error "bad json") none ⟨Json.null, [], 1⟩ =
      ((400, "bad json"), ⟨Json.null, [], 1⟩) := by
  constructor
  · exact c8_amended.2.1 (Json.obj []) none ⟨Json.null, [], 1⟩
      (fun xs h => Json.noConfusion h)
  · exact c8_amended.1 "bad json" none ⟨Json.null, [], 1⟩

/-- C9: rollback with a version id absent from the history returns 404
and leaves the whole store (active rubric and history) unchanged; with a
stored snapshot that is not valid JSON it returns 400, again leaving the
store unchanged; on success the decoded snapshot becomes active and ONE
new version entry (carrying the same snapshot text) is appended after the
untouched existing history. -/
theorem c9_rollback :
    (∀ (loads : String → Option Json) (body : Except String Json)
       (user : Option Int) (st : RubricStore) (vid : Int),
       rollbackVid body = .ok vid →
       st.versions.find? (fun r => r.id = vid) = none →
       rubric_rollback loads body user st = ((404, "Version not found"), st)) ∧
    (∀ (loads : String → Option Json) (body : Except String Json)
       (user : Option Int) (st : RubricStore) (vid : Int) (r : VersionRec),
       rollbackVid body = .ok vid →
       st.versions.find? (fun r => r.id = vid) = some r →
       loads r.rubricJson = none →
       rubric_rollback loads body user st =
         ((400, "Stored version JSON invalid"), st)) ∧
    (∀ (loads : String → Option Json) (body : Except String Json)
       (user : Option Int) (st : RubricStore) (vid : Int) (r : VersionRec)
       (decoded : Json),
       rollbackVid body = .ok vid →
       st.versions.find? (fun r => r.id = vid) = some r →
       loads r.rubricJson = some decoded →
       rubric_rollback loads body user st =
         ((200, "Rolled back to selected version"),
          ⟨decoded, st.versions ++ [⟨st.nextId, user, r.rubricJson⟩],
           st.nextId + 1⟩)) := by
  refine ⟨?_, ?_, ?_⟩
  · intro loads body user st vid hvid hfind
    simp [rubric_rollback, hvid, hfind]
  · intro loads body user st vid r hvid hfind hloads
    simp [rubric_rollback, hvid, hfind, hloads]
  · intro loads body user st vid r decoded hvid hfind hloads
    simp [rubric_rollback, hvid, hfind, hloads]

/-- A concrete store for the C9 witness: one version with id 1 whose
snapshot text decodes under the sample `loads`. -/
def c9Store : RubricStore := ⟨Json.arr [], [⟨1, some 7, "[5]"⟩], 2⟩

/-- A sample `json.loads` model for the C9 witness. -/
def c9Loads (s : String) : Option Json :=
  if s = "[5]" then some (Json.arr [Json.num 5]) else none

/-- Witness: all three parts of `c9_rollback` at concrete inputs —
unknown id 2 (404, store unchanged), undecodable snapshot (400, store
unchanged), and a successful rollback to id 1. -/
theorem c9_witness :
    rubric_rollback c9Loads (.ok (Json.obj [("version_id", Json.num 2)])) (some 7)
        c9Store = ((404, "Version not found"), c9Store) ∧
    rubric_rollback (fun _ => none) (.ok (Json.obj [("version_id", Json.num 1)])) (some 7)
        c9Store = ((400, "Stored version JSON invalid"), c9Store) ∧
    rubric_rollback c9Loads (.ok (Json.obj [("version_id", Json.num 1)])) (some 7)
        c9Store =
      ((200, "Rolled back to selected version"),
       ⟨Json.arr [Json.num 5], [⟨1, some 7, "[5]"⟩, ⟨2, some 7, "[5]"⟩], 3⟩) := by
  refine ⟨?_, ?_, ?_⟩
  · exact c9_rollback.1 c9Loads _ (some 7) c9Store 2
      (by with_unfolding_all rfl) (by with_unfolding_all rfl)
  · exact c9_rollback.2.1 (fun _ => none) _ (some 7) c9Store 1 ⟨1, some 7, "[5]"⟩
      (by with_unfolding_all rfl) (by with_unfolding_all rfl) rfl
  · exact c9_rollback.2.2 c9Loads _ (some 7) c9Store 1 ⟨1, some 7, "[5]"⟩
      (Json.arr [Json.num 5])
      (by with_unfolding_all rfl) (by with_unfolding_all rfl)
      (by with_unfolding_all rfl)

/-- Well-formed criterion dicts, the only shape the heuristic line-scan
ever accumulates. -/
def wfCrit (c : Json) : Prop :=
  ∃ p d, c = Json.obj [("points", Json.num p), ("description", Json.str d)]

theorem normCritLoop_wf (cs : List Json) (h : ∀ c ∈ cs, wfCrit c) :
    ∀ seen out, ∃ o, normCritLoop seen out cs = .ok o := by
  induction cs with
  | nil => intro seen out; exact ⟨out, rfl⟩
  | cons c rest ih =>
    intro seen out
    obtain ⟨p, d, rfl⟩ := h c (List.mem_cons_self _ _)
    have hrest : ∀ c ∈ rest, wfCrit c := fun c hc => h c (List.mem_cons_of_mem _ hc)
    by_cases hmem : ((p : ℚ), (pyStr (pyOr (Json.str d) (.str ""))).pyStrip) ∈ seen
    · obtain ⟨o, ho⟩ := ih hrest seen out
      exact ⟨o, by
        simp only [normCritLoop, pyGet, assocGet, bind, Except.bind, pure_eq_ok]
        simp [pyFloat, hmem, ho]⟩
    · obtain ⟨o, ho⟩ := ih hrest
        (((p : ℚ), (pyStr (pyOr (Json.str d) (.str ""))).pyStrip) :: seen)
        (out ++ [.obj [("points", .num p),
          ("description", .str (pyStr (pyOr (Json.str d) (.str ""))).pyStrip)]])
      exact ⟨o, by
        simp only [normCritLoop, pyGet, assocGet, bind, Except.bind, pure_eq_ok]
        simp [pyFloat, hmem, ho]⟩

theorem exists_of_isOkE {ε α : Type} {x : Except ε α} (h : isOkE x = true) :
    ∃ a, x = .ok a := by
  cases x with
  | ok a => exact ⟨a, rfl⟩
  | error e => cases h

theorem normalize_item_wf (n : String) (cs : List Json) (h : ∀ c ∈ cs, wfCrit c) :
    ∃ j, normalize_item n (.arr cs) = .ok j := by
  apply exists_of_isOkE
  cases cs with
  | nil =>
    simp [normalize_item, pyOr, pyTruthy, pyIter, normCritLoop,
      defaultCriteria, bind, Except.bind, pure_eq_ok, isOkE]
  | cons c0 rest =>
    obtain ⟨o, ho⟩ := normCritLoop_wf (c0 :: rest) h [] []
    simp [normalize_item, pyOr, pyTruthy, pyIter, bind, Except.bind,
      pure_eq_ok, ho, isOkE]

theorem pushItems_ok (items : List Json) (curName : Option String)
    (curCrit : List Json) (h : ∀ c ∈ curCrit, wfCrit c) :
    ∃ out, pushItems items curName curCrit = .ok out := by
  cases curName with
  | none => exact ⟨items, rfl⟩
  | some n =>
    by_cases hn : n = ""
    · exact ⟨items, by simp [pushItems, hn]⟩
    · obtain ⟨j, hj⟩ := normalize_item_wf n curCrit h
      exact ⟨items ++ [j], by simp [pushItems, hn, hj, bind, Except.bind, pure_eq_ok]⟩

theorem critStep_wf (named : Bool) (curCrit : List Json) (ln : String)
    (h : ∀ c ∈ curCrit, wfCrit c) :
    ∀ c ∈ critStep named curCrit ln, wfCrit c := by
  intro c hc
  unfold critStep at hc
  by_cases hn : ¬ named
  · rw [if_pos hn] at hc; exact h c hc
  · rw [if_neg hn] at hc
    cases h1 : crit1Match ln with
    | some pd =>
      simp only [h1, List.mem_append, List.mem_singleton] at hc
      rcases hc with hc | hc
      · exact h c hc
      · exact ⟨pd.1, pd.2, hc⟩
    | none =>
      simp only [h1] at hc
      cases h2 : crit2Match ln with
      | some pd =>
        simp only [h2] at hc
        by_cases hlen : pd.2.pyStrip.length ≥ 6
        · simp only [if_pos hlen, List.mem_append, List.mem_singleton] at hc
          rcases hc with hc | hc
          · exact h c hc
          · exact ⟨pd.1, pd.2, hc⟩
        · simp only [if_neg hlen] at hc
          exact h c hc
      | none =>
        simp only [h2] at hc
        exact h c hc

theorem heurScan_ok (lines : List String) :
    ∀ items curName curCrit, (∀ c ∈ curCrit, wfCrit c) →
      ∃ out, heurScan items curName curCrit lines = .ok out := by
  induction lines with
  | nil =>
    intro items curName curCrit h
    exact pushItems_ok items curName curCrit h
  | cons ln rest ih =>
    intro items curName curCrit h
    by_cases hblank : ln = ""
    · obtain ⟨o, ho⟩ := ih items curName curCrit h
      exact ⟨o, by simp [heurScan, hblank, ho]⟩
    · cases hcat : catMatch ln with
      | some g1 =>
        by_cases hw : (pySplitWs ln).length ≤ 8
        · obtain ⟨items', hpush⟩ := pushItems_ok items curName curCrit h
          obtain ⟨o, ho⟩ := ih items' (some g1.pyStrip) [] (by intro c hc; cases hc)
          exact ⟨o, by simp [heurScan, hblank, hcat, hw, hpush, ho]⟩
        · obtain ⟨o, ho⟩ := ih items curName
            (critStep (!decide ((curName.getD "") = "")) curCrit ln)
            (critStep_wf _ _ _ h)
          exact ⟨o, by simp [heurScan, hblank, hcat, hw, ho]⟩
      | none =>
        obtain ⟨o, ho⟩ := ih items curName
          (critStep (!decide ((curName.getD "") = "")) curCrit ln)
          (critStep_wf _ _ _ h)
        exact ⟨o, by simp [heurScan, hblank, hcat, ho]⟩

theorem fallbackSections_ne : ∃ l, fallbackSections = .ok l ∧ l ≠ [] := by
  cases hfb : fallbackSections with
  | error e =>
    have h8 : Except.map List.length fallbackSections = .ok 8 := by
      with_unfolding_all rfl
    rw [hfb] at h8
    cases h8
  | ok l =>
    refine ⟨l, rfl, ?_⟩
    intro hnil
    have h8 : Except.map List.length fallbackSections = .ok 8 := by
      with_unfolding_all rfl
    rw [hfb, hnil] at h8
    have : (0 : Nat) = 8 := Except.ok.inj h8
    cases this

theorem heuristic_extract_ne (t : String) :
    ∃ items, heuristic_extract t = .ok items ∧ items ≠ [] := by
  obtain ⟨out, hout⟩ := heurScan_ok (heurLines t) [] none [] (by intro c hc; cases hc)
  by_cases hempty : out.isEmpty = true
  · obtain ⟨l, hl, hne⟩ := fallbackSections_ne
    exact ⟨l, by simp [heuristic_extract, hout, hempty, hl, bind, Except.bind], hne⟩
  · refine ⟨out, by simp [heuristic_extract, hout, hempty, bind, Except.bind, pure_eq_ok], ?_⟩
    intro hnil
    rw [hnil] at hempty
    exact hempty rfl

theorem mapE_length {α : Type} (f : Json → Except Unit α) (xs : List Json) :
    ∀ ys, mapE f xs = .ok ys → ys.length = xs.length := by
  induction xs with
  | nil => intro ys h; cases h; rfl
  | cons x rest ih =>
    intro ys h
    cases hx : f x with
    | error e => simp [mapE, hx, bind, Except.bind] at h
    | ok y =>
      cases hrest : mapE f rest with
      | error e => simp [mapE, hx, hrest, bind, Except.bind] at h
      | ok ys' =>
        simp only [mapE, hx, hrest, bind, Except.bind, pure_eq_ok, Except.ok.injEq] at h
        subst h
        simp [ih ys' hrest]

theorem llm_extract_ne (k : Option String) (resp : Except String Json)
    (l : List Json) (h : llm_extract k resp = some l) : l ≠ [] := by
  unfold llm_extract at h
  by_cases hk : (k.getD "").pyStrip = ""
  · rw [if_pos hk] at h; cases h
  · rw [if_neg hk] at h
    cases resp with
    | error e => cases h
    | ok data =>
      dsimp only at h
      rcases hcand : llmCand data with _ | b | q | s | xs | fs
      all_goals rw [hcand] at h
      all_goals dsimp only at h
      all_goals try cases h
      by_cases hxs : xs.isEmpty = true
      · rw [if_pos hxs] at h; cases h
      · rw [if_neg hxs] at h
        cases hm : llmClean xs with
        | error e => rw [hm] at h; cases h
        | ok cleaned =>
          rw [hm] at h
          have hl : l = cleaned := by cases h; rfl
          subst hl
          intro hnil
          have := mapE_length _ xs l (by simpa [llmClean] using hm)
          rw [hnil] at this
          have hxs' : xs = [] := List.length_eq_zero.mp this.symm
          rw [hxs'] at hxs
          exact hxs rfl

/-- C10: for every credential/LLM outcome and every source text, the
Rubric Extractor returns without raising, yields the empty list exactly
when the trimmed input is empty, and otherwise a non-empty section list —
the LLM tier when usable, else the heuristic scan, else the fixed
8-section fallback (the fallback guarantees non-emptiness). -/
theorem c10_extractor (apiKey : Option String) (llmResp : Except String Json)
    (text : String) :
    ∃ items, extract_rubric_from_text apiKey llmResp text = .ok items ∧
      (items = [] ↔ text.pyStrip = "") := by
  by_cases h : text.pyStrip = ""
  · refine ⟨[], ?_, by simp [h]⟩
    simp [extract_rubric_from_text, h]
  · cases hl : llm_extract apiKey llmResp with
    | none =>
      obtain ⟨items, hi, hne⟩ := heuristic_extract_ne text.pyStrip
      refine ⟨items, ?_, by simp [hne, h]⟩
      simp [extract_rubric_from_text, h, hl, hi]
    | some l =>
      have hlne : l ≠ [] := llm_extract_ne apiKey llmResp l hl
      have hle : l.isEmpty = false := by
        cases l with
        | nil => exact absurd rfl hlne
        | cons a as => rfl
      refine ⟨l, ?_, by simp [hlne, h]⟩
      simp [extract_rubric_from_text, h, hl, hle]
